import Mathlib

/-!
Shallow embedding of src/cityhash.c (CityHash, C port) and verification of the
specification claims about it.

Modelling conventions:
* A byte buffer is a function `s : Nat → Nat`; the byte stored at absolute
  address `i` is `s i % 256` (`byteAt`).  A C pointer is the pair of the buffer
  and an absolute offset, so pointer arithmetic `p + k` is plain `Nat` addition
  on offsets, exactly mirroring the source, including reads that step backwards
  from an advanced pointer.
* `uint64_t` arithmetic is `Nat` arithmetic reduced modulo `2 ^ 64` at every
  operation (`add64`, `sub64`, `mul64`); `uint32_t` likewise modulo `2 ^ 32`.
* Shifting a 64-bit value by 64 or more bits is undefined behavior in C, and
  `rotate64` has `assert(shift < 64)`.  Both are modelled by `Option`: a shift
  out of range yields `none`, which propagates through every caller, so an
  entry point returns `some` exactly when no undefined shift and no assert
  failure occurs on that execution.
* The do-while loops of the source become structural recursion on the exact
  iteration count the loop performs, with the pointer advanced exactly as in
  the source.
-/

namespace Cityhash

/-- The byte stored at absolute address `i` of buffer `s` (a C `uint8_t`). -/
def byteAt (s : Nat → Nat) (i : Nat) : Nat := s i % 256

/-- C constant k0 (line 52). -/
def k0 : Nat := 0xc3a5c85c97cb3127

/-- C constant k1 (line 53). -/
def k1 : Nat := 0xb492b66fbe98f273

/-- C constant k2 (line 54). -/
def k2 : Nat := 0x9ae16a3b2f90404f

/-- C constant k3 (line 55). -/
def k3 : Nat := 0xc949d7c7509e6557

/-- Addition of two uint64 values. -/
def add64 (a b : Nat) : Nat := (a + b) % 2 ^ 64

/-- Subtraction of two uint64 values (wrapping modulo 2^64). -/
def sub64 (a b : Nat) : Nat := (a + (2 ^ 64 - b % 2 ^ 64)) % 2 ^ 64

/-- Multiplication of two uint64 values. -/
def mul64 (a b : Nat) : Nat := (a * b) % 2 ^ 64

/-- fetch64 (lines 57-75): little-endian load of 8 bytes at offset `p`. -/
def fetch64 (s : Nat → Nat) (p : Nat) : Nat :=
  byteAt s p + byteAt s (p + 1) * 2 ^ 8 + byteAt s (p + 2) * 2 ^ 16 +
  byteAt s (p + 3) * 2 ^ 24 + byteAt s (p + 4) * 2 ^ 32 + byteAt s (p + 5) * 2 ^ 40 +
  byteAt s (p + 6) * 2 ^ 48 + byteAt s (p + 7) * 2 ^ 56

/-- fetch32 (lines 65-79): little-endian load of 4 bytes at offset `p`. -/
def fetch32 (s : Nat → Nat) (p : Nat) : Nat :=
  byteAt s p + byteAt s (p + 1) * 2 ^ 8 + byteAt s (p + 2) * 2 ^ 16 +
  byteAt s (p + 3) * 2 ^ 24

/-- rotate64 (lines 91-95): `assert(shift < 64); return (val >> shift) | (val << (64 - shift))`.
An assert failure, or a shift by the full register width (`val << 64`, reached
exactly when `shift = 0`), is undefined and modelled as `none`.  There is no
special case for `shift = 0` in the source. -/
def rotate64 (val shift : Nat) : Option Nat :=
  if shift < 64 then
    if 64 - shift < 64 then
      some ((val >>> shift) ||| ((val <<< (64 - shift)) % 2 ^ 64))
    else
      none
  else
    none

/-- smix (line 97): `val ^ (val >> 47)`. -/
def smix (val : Nat) : Nat := val ^^^ (val >>> 47)

/-- The 128-bit struct of cityhash.h: an ordered pair of 64-bit lanes. -/
structure uint128_t where
  a : Nat
  b : Nat
deriving DecidableEq

/-- The 256-bit struct of cityhash.h: an ordered 4-tuple of 64-bit lanes. -/
structure uint256_t where
  a : Nat
  b : Nat
  c : Nat
  d : Nat
deriving DecidableEq

/-- Modelled from the spec: `hash_128_to_64` (the spec's `combine16`), declared in
the header cityhash.h which is not under src/.  Per the spec it is a fixed
128-bit-to-64-bit compression (multiply, shift-xor avalanche, multiply again);
this is the classical CityHash Murmur-inspired compression. -/
def hash_128_to_64 (x : uint128_t) : Nat :=
  let m := 0x9ddfea08eb382d69
  let a := mul64 (x.a ^^^ x.b) m
  let a := a ^^^ (a >>> 47)
  let b := mul64 (x.b ^^^ a) m
  let b := b ^^^ (b >>> 47)
  mul64 b m

/-- hash_16 (lines 99-103): combine two 64-bit values through hash_128_to_64. -/
def hash_16 (u v : Nat) : Nat := hash_128_to_64 ⟨u, v⟩

/-- hash_0_to_16 (lines 105-134). -/
def hash_0_to_16 (s : Nat → Nat) (p len : Nat) : Option Nat :=
  if len > 8 then
    let a := fetch64 s p
    let b := fetch64 s (p + len - 8)
    (rotate64 (add64 b len) len).bind fun r =>
      some (hash_16 a r ^^^ b)
  else if len >= 4 then
    let a := fetch32 s p
    some (hash_16 (add64 len ((a <<< 3) % 2 ^ 64)) (fetch32 s (p + len - 4)))
  else if len > 0 then
    let a := byteAt s p
    let b := byteAt s (p + (len >>> 1))
    let c := byteAt s (p + len - 1)
    let y := (a + (b <<< 8)) % 2 ^ 32
    let z := (len + (c <<< 2)) % 2 ^ 32
    some (mul64 (smix (mul64 y k2 ^^^ mul64 z k3)) k2)
  else
    some k2

/-- hash_17_to_32 (lines 138-147). -/
def hash_17_to_32 (s : Nat → Nat) (p len : Nat) : Option Nat :=
  let a := mul64 (fetch64 s p) k1
  let b := fetch64 s (p + 8)
  let c := mul64 (fetch64 s (p + len - 8)) k2
  let d := mul64 (fetch64 s (p + len - 16)) k0
  (rotate64 (sub64 a b) 43).bind fun r1 =>
  (rotate64 c 30).bind fun r2 =>
  (rotate64 (b ^^^ k3) 20).bind fun r3 =>
  some (hash_16 (add64 (add64 r1 r2) d) (add64 (sub64 (add64 a r3) c) len))

/-- weak_hash_32_with_seeds (lines 151-164). -/
def weak_hash_32_with_seeds (w x y z a b : Nat) : Option uint128_t :=
  let a := add64 a w
  (rotate64 (add64 (add64 b a) z) 21).bind fun b =>
  let c := a
  let a := add64 a x
  let a := add64 a y
  (rotate64 a 44).bind fun r =>
  let b := add64 b r
  some ⟨add64 a z, add64 b c⟩

/-- weak_hash_32_with_seeds_raw (lines 167-172): reads the 32 bytes at offset `p`. -/
def weak_hash_32_with_seeds_raw (s : Nat → Nat) (p a b : Nat) : Option uint128_t :=
  weak_hash_32_with_seeds (fetch64 s p) (fetch64 s (p + 8)) (fetch64 s (p + 16))
    (fetch64 s (p + 24)) a b

/-- hash_33_to_64 (lines 175-197). -/
def hash_33_to_64 (s : Nat → Nat) (p len : Nat) : Option Nat :=
  let z := fetch64 s (p + 24)
  let a := add64 (fetch64 s p) (mul64 (add64 len (fetch64 s (p + len - 16))) k0)
  (rotate64 (add64 a z) 52).bind fun b =>
  (rotate64 a 37).bind fun c =>
  let a := add64 a (fetch64 s (p + 8))
  (rotate64 a 7).bind fun r1 =>
  let c := add64 c r1
  let a := add64 a (fetch64 s (p + 16))
  let vf := add64 a z
  (rotate64 a 31).bind fun r2 =>
  let vs := add64 (add64 b r2) c
  let a := add64 (fetch64 s (p + 16)) (fetch64 s (p + len - 32))
  let z := fetch64 s (p + len - 8)
  (rotate64 (add64 a z) 52).bind fun b =>
  (rotate64 a 37).bind fun c =>
  let a := add64 a (fetch64 s (p + len - 24))
  (rotate64 a 7).bind fun r3 =>
  let c := add64 c r3
  let a := add64 a (fetch64 s (p + len - 16))
  let wf := add64 a z
  (rotate64 a 31).bind fun r4 =>
  let ws := add64 (add64 b r4) c
  let r := smix (add64 (mul64 (add64 vf ws) k2) (mul64 (add64 wf vs) k0))
  some (mul64 (smix (add64 (mul64 r k0) vs)) k2)

/-- The five-register state x, y, z, v, w of the long 64-byte-block paths
(cityhash64 lines 216-224 and cityhash128_with_seed lines 303-313). -/
structure LoopState where
  x : Nat
  y : Nat
  z : Nat
  v : uint128_t
  w : uint128_t
deriving DecidableEq

/-- Seeding of the long-path state of cityhash64 (lines 216-224).  Note that
`x` is seeded from the first 8 bytes (`fetch64(s)`), while `y`, `z`, `v`, `w`
are seeded from the last 64 bytes and the length. -/
def longSeed (s : Nat → Nat) (p len : Nat) : Option LoopState :=
  let x := fetch64 s p
  let y := fetch64 s (p + len - 16) ^^^ k1
  let z := fetch64 s (p + len - 56) ^^^ k0
  (weak_hash_32_with_seeds_raw s (p + len - 64) len y).bind fun v =>
  (weak_hash_32_with_seeds_raw s (p + len - 32) (mul64 len k1) k0).bind fun w =>
  let z := add64 z (mul64 (smix v.b) k1)
  (rotate64 (add64 z x) 39).bind fun x1 =>
  let x := mul64 x1 k1
  (rotate64 y 33).bind fun y1 =>
  let y := mul64 y1 k1
  some ⟨x, y, z, v, w⟩

/-- One iteration of the 64-byte-block loop (cityhash64 lines 231-238, textually
identical to each half of the unrolled loop of cityhash128_with_seed, lines
318-325 and 327-334), reading the chunk at offset `p`; ends with swap64(&z,&x). -/
def chunkStep (s : Nat → Nat) (p : Nat) (st : LoopState) : Option LoopState :=
  (rotate64 (add64 (add64 (add64 st.x st.y) st.v.a) (fetch64 s (p + 16))) 37).bind fun x1 =>
  let x := mul64 x1 k1
  (rotate64 (add64 (add64 st.y st.v.b) (fetch64 s (p + 48))) 42).bind fun y1 =>
  let y := mul64 y1 k1
  let x := x ^^^ st.w.b
  let y := y ^^^ st.v.a
  (rotate64 (st.z ^^^ st.w.a) 33).bind fun z =>
  (weak_hash_32_with_seeds_raw s p (mul64 st.v.b k1) (add64 x st.w.a)).bind fun v =>
  (weak_hash_32_with_seeds_raw s (p + 32) (add64 z st.w.b) y).bind fun w =>
  some ⟨z, y, x, v, w⟩

/-- The do-while loop of cityhash64 (lines 229-241) run for `n` iterations,
advancing the chunk pointer by 64 bytes per iteration. -/
def chunkLoop (s : Nat → Nat) (p : Nat) (st : LoopState) : Nat → Option LoopState
  | 0 => some st
  | n + 1 => (chunkStep s p st).bind fun st1 => chunkLoop s (p + 64) st1 n

/-- The effective-length truncation of cityhash64 (line 227):
`len = (len - 1) & ~((size_t)63)`. -/
def truncLen (len : Nat) : Nat := (len - 1) &&& 0xffffffffffffffc0

/-- Final combination of the long-path state of cityhash64 (line 243). -/
def final64 (st : LoopState) : Nat :=
  hash_16 (add64 (add64 (hash_16 st.v.a st.w.a) (mul64 (smix st.y) k1)) st.z)
    (add64 (hash_16 st.v.b st.w.b) st.x)

/-- cityhash64 (lines 199-244).  The do-while loop runs `truncLen len / 64`
iterations: the truncated length is a positive multiple of 64 whenever
`len > 64`, and the loop consumes 64 bytes per iteration until it is exhausted. -/
def cityhash64 (s : Nat → Nat) (p len : Nat) : Option Nat :=
  if len <= 32 then
    if len <= 16 then hash_0_to_16 s p len
    else hash_17_to_32 s p len
  else if len <= 64 then
    hash_33_to_64 s p len
  else
    (longSeed s p len).bind fun st =>
    (chunkLoop s p st (truncLen len / 64)).bind fun st =>
    some (final64 st)

/-- cityhash64_with_seeds (lines 250-253). -/
def cityhash64_with_seeds (s : Nat → Nat) (p len seed0 seed1 : Nat) : Option Nat :=
  (cityhash64 s p len).bind fun h => some (hash_16 (sub64 h seed0) seed1)

/-- cityhash64_with_seed (lines 246-248). -/
def cityhash64_with_seed (s : Nat → Nat) (p len seed : Nat) : Option Nat :=
  cityhash64_with_seeds s p len k2 seed

/-- Reinterpretation of a uint64 bit pattern as a signed 64-bit integer
(the `signed long l = len - 16` conversion of city_murmur, line 263). -/
def toSigned64 (n : Nat) : Int :=
  if n % 2 ^ 64 < 2 ^ 63 then (n % 2 ^ 64 : Nat) else (n % 2 ^ 64 : Nat) - 2 ^ 64

/-- The do-while loop of city_murmur (lines 276-286) run for `n` iterations,
consuming 16 bytes per iteration. -/
def murmurLoop (s : Nat → Nat) : Nat → Nat → Nat → Nat → Nat → Nat → Nat × Nat × Nat × Nat
  | _, a, b, c, d, 0 => (a, b, c, d)
  | p, a, b, c, d, n + 1 =>
    let a := a ^^^ mul64 (smix (mul64 (fetch64 s p) k1)) k1
    let a := mul64 a k1
    let b := b ^^^ a
    let c := c ^^^ mul64 (smix (mul64 (fetch64 s (p + 8)) k1)) k1
    let c := mul64 c k1
    let d := d ^^^ c
    murmurLoop s (p + 16) a b c d n

/-- city_murmur (lines 257-295).  `l = len - 16` is computed in `size_t` and
reinterpreted as a signed long; the do-while loop of the `l > 0` branch runs
`ceil(l / 16)` iterations (it decrements `l` by 16 until `l <= 0`). -/
def city_murmur (s : Nat → Nat) (p len : Nat) (seed : uint128_t) : Option uint128_t :=
  let l : Int := toSigned64 (len + 2 ^ 64 - 16)
  (if l ≤ 0 then
    let a := mul64 (smix (mul64 seed.a k1)) k1
    (hash_0_to_16 s p len).bind fun h =>
    let c := add64 (mul64 seed.b k1) h
    let d := smix (add64 a (if 8 ≤ len then fetch64 s p else c))
    some (a, seed.b, c, d)
  else
    let c := hash_16 (add64 (fetch64 s (p + len - 8)) k1) seed.a
    let d := hash_16 (add64 seed.b len) (add64 c (fetch64 s (p + len - 16)))
    let a := add64 seed.a d
    some (murmurLoop s p a seed.b c d ((l.toNat + 15) / 16))).bind fun r =>
  let a := hash_16 r.1 r.2.2.1
  let b := hash_16 r.2.2.2 r.2.1
  some ⟨a ^^^ b, hash_16 b a⟩

/-- One 128-byte super-iteration of the do-while loop of cityhash128_with_seed
(lines 316-337): the 64-byte block step of cityhash64, manually unrolled twice. -/
def superStep (s : Nat → Nat) (p : Nat) (st : LoopState) : Option LoopState :=
  (chunkStep s p st).bind fun st => chunkStep s (p + 64) st

/-- The do-while loop of cityhash128_with_seed run for `n` super-iterations,
advancing the pointer by 128 bytes per iteration. -/
def superLoop (s : Nat → Nat) (p : Nat) (st : LoopState) : Nat → Option LoopState
  | 0 => some st
  | n + 1 => (superStep s p st).bind fun st1 => superLoop s (p + 128) st1 n

/-- The 32-byte tail loop of cityhash128_with_seed (lines 343-351), iterated
`n` more times with accumulated counter `tail_done`; `len` is the remaining
length after the main loop and `p` the advanced pointer. -/
def tailLoop128 (s : Nat → Nat) (p len : Nat) :
    Nat → Nat → uint128_t → uint128_t → Nat → Nat → Option (Nat × Nat × uint128_t × uint128_t)
  | x, y, v, w, 0 => fun _ => some (x, y, v, w)
  | x, y, v, w, n + 1 => fun tail_done =>
    let tail_done := tail_done + 32
    (rotate64 (sub64 y x) 42).bind fun y1 =>
    let y := add64 (mul64 y1 k0) v.b
    let wa := add64 w.a (fetch64 s (p + len - tail_done + 16))
    (rotate64 x 49).bind fun x1 =>
    let x := add64 (mul64 x1 k0) wa
    let wa := add64 wa v.a
    (weak_hash_32_with_seeds_raw s (p + len - tail_done) v.a v.b).bind fun v =>
    tailLoop128 s p len x y v ⟨wa, w.b⟩ n tail_done

/-- Post-loop mixing, tail loop and final combination of cityhash128_with_seed
(lines 339-361), with `p` the advanced pointer and `rem` the remaining length:
`y += rotate64(w.a, 37) * k0 + z; x += rotate64(v.a + z, 49) * k0;` then the
32-byte tail loop, then `x = hash_16(x, v.a); y = hash_16(y, w.a);` and the
final pair `{hash_16(x + v.b, w.b) + y, hash_16(x + w.b, y + v.b)}`. -/
def finish128 (s : Nat → Nat) (p rem : Nat) (st : LoopState) : Option uint128_t :=
  (rotate64 st.w.a 37).bind fun r1 =>
  (rotate64 (add64 st.v.a st.z) 49).bind fun r2 =>
  (tailLoop128 s p rem (add64 st.x (mul64 r2 k0)) (add64 (add64 st.y (mul64 r1 k0)) st.z)
      st.v st.w ((rem + 31) / 32) 0).bind fun t =>
  some ⟨add64 (hash_16 (add64 (hash_16 t.1 t.2.2.1.a) t.2.2.1.b) t.2.2.2.b)
          (hash_16 t.2.1 t.2.2.2.a),
        hash_16 (add64 (hash_16 t.1 t.2.2.1.a) t.2.2.2.b)
          (add64 (hash_16 t.2.1 t.2.2.2.a) t.2.2.1.b)⟩

/-- cityhash128_with_seed (lines 297-362).  For `len ≥ 128` the state is
seeded from the seed, the length and the bytes at offsets 0-15 and 88-95
(lines 306-313, with v.a reused in the computation of v.b); the do-while loop
runs `len / 128` super-iterations (it consumes 128 bytes and re-tests
`len >= 128`), leaving `len % 128` tail bytes for finish128. -/
def cityhash128_with_seed (s : Nat → Nat) (p len : Nat) (seed : uint128_t) : Option uint128_t :=
  if len < 128 then
    city_murmur s p len seed
  else
    (rotate64 (seed.b ^^^ k1) 49).bind fun t1 =>
    (rotate64 (add64 (mul64 t1 k1) (fetch64 s p)) 42).bind fun t2 =>
    (rotate64 (add64 seed.b (mul64 len k1)) 35).bind fun t3 =>
    (rotate64 (add64 seed.a (fetch64 s (p + 88))) 53).bind fun t4 =>
    (superLoop s p ⟨seed.a, seed.b, mul64 len k1,
        ⟨add64 (mul64 t1 k1) (fetch64 s p), add64 (mul64 t2 k1) (fetch64 s (p + 8))⟩,
        ⟨add64 (mul64 t3 k1) seed.a, mul64 t4 k1⟩⟩ (len / 128)).bind fun st =>
    finish128 s (p + 128 * (len / 128)) (len % 128) st

/-- The C null pointer, passed by the 8-to-15-byte branch of cityhash128
together with length 0.  Modelled as the all-zero buffer; that the call reads
no bytes through it is established by the theorem for claim C8. -/
def nullPtr : Nat → Nat := fun _ => 0

/-- cityhash128 (lines 364-381). -/
def cityhash128 (s : Nat → Nat) (p len : Nat) : Option uint128_t :=
  if 16 ≤ len then
    cityhash128_with_seed s (p + 16) (len - 16) ⟨fetch64 s p ^^^ k3, fetch64 s (p + 8)⟩
  else if 8 ≤ len then
    cityhash128_with_seed nullPtr 0 0
      ⟨fetch64 s p ^^^ mul64 len k0, fetch64 s (p + len - 8) ^^^ k1⟩
  else
    cityhash128_with_seed s p len ⟨k0, k1⟩

/-- One bitwise round of the reflected CRC-32C step function, `n` rounds. -/
def crc32cSteps (r x : Nat) : Nat → Nat
  | 0 => r
  | n + 1 =>
    crc32cSteps ((r / 2) ^^^ (if (r ^^^ x) % 2 = 1 then 0x82f63b78 else 0)) (x / 2) n

/-- Modelled from the spec: the hardware cyclic-checksum instruction
`_mm_crc32_u64` used by the 256-bit family; the intrinsic is declared in a
system header, not under src/.  Per the spec it is the hardware-accelerated
cyclic checksum; modelled as the reflected CRC-32C (polynomial 0x82f63b78)
of the 64 data bits of `v` folded into the 32-bit accumulator `crc`. -/
def crc32c_u64 (crc v : Nat) : Nat := crc32cSteps (crc % 2 ^ 32) (v % 2 ^ 64) 64

/-- The ten-register state a..j plus `t` of cityhash256_crc_long (lines 395-405). -/
structure Crc256State where
  a : Nat
  b : Nat
  c : Nat
  d : Nat
  e : Nat
  f : Nat
  g : Nat
  h : Nat
  i : Nat
  j : Nat
  t : Nat
deriving DecidableEq

/-- The CHUNK macro of cityhash256_crc_long (lines 412-427): one 40-byte
sub-chunk with multiplier `mult` and xor mask `z`, read at offset `p`. -/
def chunk256 (s : Nat → Nat) (p mult z : Nat) (st : Crc256State) : Option Crc256State :=
  let old_a := st.a
  (rotate64 st.b (41 ^^^ z)).bind fun a1 =>
  let a := add64 (mul64 a1 mult) (fetch64 s p)
  (rotate64 st.c (27 ^^^ z)).bind fun b1 =>
  let b := add64 (mul64 b1 mult) (fetch64 s (p + 8))
  (rotate64 st.d (41 ^^^ z)).bind fun c1 =>
  let c := add64 (mul64 c1 mult) (fetch64 s (p + 16))
  (rotate64 st.e (33 ^^^ z)).bind fun d1 =>
  let d := add64 (mul64 d1 mult) (fetch64 s (p + 24))
  (rotate64 st.t (25 ^^^ z)).bind fun e1 =>
  let e := add64 (mul64 e1 mult) (fetch64 s (p + 32))
  let t := old_a
  let f := crc32c_u64 st.f a
  let g := crc32c_u64 st.g b
  let h := crc32c_u64 st.h c
  let i := crc32c_u64 st.i d
  let j := crc32c_u64 st.j e
  some ⟨a, b, c, d, e, f, g, h, i, j, t⟩

/-- One 240-byte super-block of cityhash256_crc_long (lines 429-431):
`CHUNK(1, 1); CHUNK(k0, 0);` three times, the pointer advancing 40 bytes per
sub-chunk. -/
def block256 (s : Nat → Nat) (p : Nat) (st : Crc256State) : Option Crc256State :=
  (chunk256 s p 1 1 st).bind fun st =>
  (chunk256 s (p + 40) k0 0 st).bind fun st =>
  (chunk256 s (p + 80) 1 1 st).bind fun st =>
  (chunk256 s (p + 120) k0 0 st).bind fun st =>
  (chunk256 s (p + 160) 1 1 st).bind fun st =>
  chunk256 s (p + 200) k0 0 st

/-- The do-while loop of cityhash256_crc_long (lines 411-432) run for `n`
super-blocks. -/
def loop256 (s : Nat → Nat) (p : Nat) (st : Crc256State) : Nat → Option Crc256State
  | 0 => some st
  | n + 1 => (block256 s p st).bind fun st1 => loop256 s (p + 240) st1 n

/-- The 32-byte tail loop of cityhash256_crc_long (lines 443-450), over the
registers a, c, d and the lane pair v.  The source spells its helpers `Rotate`
and `Fetch64`; these names are declared nowhere in the repository (the spec
flags this naming inconsistency), and are modelled as the rotate64 and fetch64
they transcribe. -/
def tailLoop256 (s : Nat → Nat) (p len : Nat) :
    Nat → Nat → Nat → uint128_t → Nat → Nat → Option (Nat × Nat × Nat × uint128_t)
  | a, c, d, v, 0 => fun _ => some (a, c, d, v)
  | a, c, d, v, n + 1 => fun tail_done =>
    let tail_done := tail_done + 32
    (rotate64 (sub64 c a) 42).bind fun c1 =>
    let c := add64 (mul64 c1 k0) v.b
    let d := add64 d (fetch64 s (p + len - tail_done + 16))
    (rotate64 a 49).bind fun a1 =>
    let a := add64 (mul64 a1 k0) d
    let d := add64 d v.a
    (weak_hash_32_with_seeds_raw s (p + len - tail_done) v.a v.b).bind fun v =>
    tailLoop256 s p len a c d v n tail_done

/-- Register initialisation of cityhash256_crc_long (lines 395-405).  The
initial `c` is also stored as `result.b` and the initial `d` as `result.c`;
they are recovered from this state by the caller. -/
def init256 (s : Nat → Nat) (p len seed : Nat) : Crc256State :=
  let a := add64 (fetch64 s (p + 56)) k0
  let b := add64 (fetch64 s (p + 96)) k0
  let c := hash_16 b len
  let d := add64 (mul64 (fetch64 s (p + 120)) k0) len
  let e := add64 (fetch64 s (p + 184)) seed
  ⟨a, b, c, d, e, seed, 0, 0, 0, 0, add64 c d⟩

/-- Post-loop mixing, tail loop and final mix of cityhash256_crc_long
(lines 434-464), with `p` the advanced pointer, `rem` the remaining length,
and `rb`, `rc` the initially stored `result.b` and `result.c`. -/
def finish256 (s : Nat → Nat) (p rem rb rc : Nat) (st : Crc256State) : Option uint256_t :=
  let j := add64 st.j ((st.i <<< 32) % 2 ^ 64)
  let a := hash_16 st.a j
  let h := add64 st.h ((st.g <<< 32) % 2 ^ 64)
  let b := add64 (mul64 st.b k0) h
  let c := add64 (hash_16 st.c st.f) st.i
  let d := hash_16 st.d st.e
  let v : uint128_t := ⟨add64 j st.e, hash_16 h st.t⟩
  let h := add64 v.b st.f
  (tailLoop256 s p rem a c d v ((rem + 31) / 32) 0).bind fun r =>
  let a := r.1
  let c := r.2.1
  let d := r.2.2.1
  let v := r.2.2.2
  let e := add64 (hash_16 a d) v.a
  let f := add64 (hash_16 b c) a
  let g := add64 (hash_16 v.a v.b) c
  let ra := add64 (add64 (add64 e f) g) h
  let a := add64 (mul64 (smix (mul64 (add64 a g) k0)) k0) b
  let rb := add64 rb (add64 a ra)
  let a := add64 (mul64 (smix (mul64 a k0)) k0) c
  let rc := add64 rc (add64 a rb)
  let a := mul64 (smix (mul64 (add64 a e) k0)) k0
  some ⟨ra, rb, rc, add64 a rc⟩

/-- cityhash256_crc_long (lines 390-465); requires `len >= 240`.  The do-while
loop runs `len / 240` super-blocks, leaving `len - (len / 240) * 240` tail
bytes; the tail loop runs `ceil(rem / 32)` iterations. -/
def cityhash256_crc_long (s : Nat → Nat) (p len seed : Nat) : Option uint256_t :=
  let st := init256 s p len seed
  (loop256 s p st (len / 240)).bind fun st1 =>
  finish256 s (p + 240 * (len / 240)) (len - (len / 240) * 240) st.c st.d st1

/-- The 240-byte zero-padded scratch buffer of cityhash256_crc_short
(lines 470-473): the `len` input bytes followed by zeros. -/
def padBuf (s : Nat → Nat) (p len : Nat) : Nat → Nat :=
  fun i => if i < len then byteAt s (p + i) else 0

/-- cityhash256_crc_short (lines 468-476); requires `len < 240`.  Invokes the
long path on the padded buffer with seed `~((uint32_t)len)`. -/
def cityhash256_crc_short (s : Nat → Nat) (p len : Nat) : Option uint256_t :=
  cityhash256_crc_long (padBuf s p len) 0 240 (2 ^ 32 - 1 - len % 2 ^ 32)

/-- cityhash256_crc (lines 478-485). -/
def cityhash256_crc (s : Nat → Nat) (p len : Nat) : Option uint256_t :=
  if 240 ≤ len then cityhash256_crc_long s p len 0
  else cityhash256_crc_short s p len

/-- cityhash128_crc_with_seed (lines 487-505). -/
def cityhash128_crc_with_seed (s : Nat → Nat) (p len : Nat) (seed : uint128_t) :
    Option uint128_t :=
  if len ≤ 900 then
    cityhash128_with_seed s p len seed
  else
    (cityhash256_crc s p len).bind fun hash =>
    let u := add64 seed.b hash.a
    let v := add64 seed.a hash.b
    (rotate64 v 32).bind fun r =>
    some ⟨hash_16 u (add64 v hash.c), hash_16 r (add64 (mul64 u k0) hash.d)⟩

/-- cityhash128_crc (lines 507-519): for `len <= 900` it delegates to plain
cityhash128; otherwise it returns the last two lanes of the 256-bit hash. -/
def cityhash128_crc (s : Nat → Nat) (p len : Nat) : Option uint128_t :=
  if len ≤ 900 then
    cityhash128 s p len
  else
    (cityhash256_crc s p len).bind fun hash =>
    some ⟨hash.c, hash.d⟩

/-- The mathematical value of a successful 64-bit right rotation. -/
def rot64val (v n : Nat) : Nat := (v >>> n) ||| ((v <<< (64 - n)) % 2 ^ 64)

/-- The all-zero buffer, used as a concrete sample input. -/
def sampleZero : Nat → Nat := fun _ => 0

/-- The buffer whose byte at address i is i mod 256, used as a concrete sample
input. -/
def sampleIdx : Nat → Nat := fun i => i % 256

/-- A buffer that is all zero below address 65 and 7 from there on, used as a
concrete sample input agreeing with sampleZero on its first 65 bytes. -/
def sampleTail65 : Nat → Nat := fun i => if 65 ≤ i then 7 else 0

/-- A buffer differing from sampleZero exactly at address 0, used as a concrete
sample input. -/
def sampleOne : Nat → Nat := fun i => if i = 0 then 1 else 0

/-- A buffer agreeing with sampleIdx below address 16 and constant 5 from
there on, used as a concrete sample input. -/
def sampleJunk : Nat → Nat := fun i => if i < 16 then i % 256 else 5

/-- Register state of the 256-bit hash of the all-zero 901-byte input before
the first 240-byte super-block. -/
def crc901st0 : Crc256State :=
  ⟨14097894508562428199, 14097894508562428199, 13718975435100658996, 901, 0, 0, 0, 0, 0, 0,
   13718975435100659897⟩

/-- Register state of the 256-bit hash of the all-zero 901-byte input after
one 240-byte super-block. -/
def crc901st1 : Crc256State :=
  ⟨5744454184475099787, 10382533760904397536, 3493739293419064789, 1798079655643760359, 0,
   3694050319, 2936353941, 3869157219, 3260140592, 187723957, 12064944790519543474⟩

/-- Register state of the 256-bit hash of the all-zero 901-byte input after
two 240-byte super-blocks. -/
def crc901st2 : Crc256State :=
  ⟨10853509907978161764, 10773996082372810435, 10196069348611944081, 6755989250162594081, 0,
   3940499074, 55643037, 3672091725, 2476121024, 239467980, 2131297175971344068⟩

/-- Register state of the 256-bit hash of the all-zero 901-byte input after
all three 240-byte super-blocks. -/
def crc901st3 : Crc256State :=
  ⟨6152961225256289050, 13037349809348291709, 9018890814778125772, 12515760687258409695, 0,
   307594167, 175524997, 3101392035, 4221396434, 2388552264, 4888824275875801380⟩

/-- Spec-side helper for claims C5 and C6: the explicit list of chunk offsets
p, p + 64, ..., p + 64 * (n - 1), front to back. -/
def chunkPositions (p n : Nat) : List Nat := (List.range n).map (fun i => p + 64 * i)

/-- Spec-side helper for claim C5: folding the 64-byte block step over an
explicit list of chunk offsets. -/
def chunkFold (s : Nat → Nat) (st : LoopState) : List Nat → Option LoopState
  | [] => some st
  | q :: qs => (chunkStep s q st).bind fun st1 => chunkFold s st1 qs

/-- Spec-side definition following the words of claim C5: the long path of
cityhash64 with the effective length truncated to 64 * floor(len / 64), i.e.
running floor(len / 64) chunk iterations, everything else as in the source. -/
def cityhash64_claimC5 (s : Nat → Nat) (p len : Nat) : Option Nat :=
  (longSeed s p len).bind fun st =>
  (chunkLoop s p st (len / 64)).bind fun st1 =>
  some (final64 st1)

/-!  Theorems.  -/

lemma loop256_succ (s : Nat → Nat) (p : Nat) (st : Crc256State) (n : Nat) :
    loop256 s p st (n + 1) = (block256 s p st).bind fun st1 => loop256 s (p + 240) st1 n := rfl

lemma loop256_zero (s : Nat → Nat) (p : Nat) (st : Crc256State) :
    loop256 s p st 0 = some st := rfl

set_option maxRecDepth 40000 in
set_option maxHeartbeats 3000000 in
lemma crc901_init : init256 sampleZero 0 901 0 = crc901st0 := by decide

set_option maxRecDepth 40000 in
set_option maxHeartbeats 3000000 in
lemma crc901_b1 : block256 sampleZero 0 crc901st0 = some crc901st1 := by decide

set_option maxRecDepth 40000 in
set_option maxHeartbeats 3000000 in
lemma crc901_b2 : block256 sampleZero 240 crc901st1 = some crc901st2 := by decide

set_option maxRecDepth 40000 in
set_option maxHeartbeats 3000000 in
lemma crc901_b3 : block256 sampleZero 480 crc901st2 = some crc901st3 := by decide

set_option maxRecDepth 40000 in
set_option maxHeartbeats 3000000 in
lemma crc901_fin : finish256 sampleZero 720 181 13718975435100658996 901 crc901st3 =
    some ⟨14321234580870349764, 5474435985963716387, 5634459796293612268,
      14983055726212346442⟩ := by
  decide

lemma crc901_loop : loop256 sampleZero 0 crc901st0 3 = some crc901st3 := by
  show loop256 sampleZero 0 crc901st0 (2 + 1) = _
  rw [loop256_succ, crc901_b1, Option.some_bind]
  show loop256 sampleZero 240 crc901st1 (1 + 1) = _
  rw [loop256_succ, crc901_b2, Option.some_bind]
  show loop256 sampleZero 480 crc901st2 (0 + 1) = _
  rw [loop256_succ, crc901_b3, Option.some_bind]
  rw [loop256_zero]

lemma crc901_val : cityhash256_crc sampleZero 0 901 =
    some ⟨14321234580870349764, 5474435985963716387, 5634459796293612268,
      14983055726212346442⟩ := by
  show (loop256 sampleZero 0 crc901st0 3).bind
      (fun st1 => finish256 sampleZero 720 181 crc901st0.c crc901st0.d st1) =
    some ⟨14321234580870349764, 5474435985963716387, 5634459796293612268,
      14983055726212346442⟩
  rw [crc901_loop, Option.some_bind]
  exact crc901_fin

lemma crc128_901_val : cityhash128_crc sampleZero 0 901 =
    some ⟨5634459796293612268, 14983055726212346442⟩ := by
  show (cityhash256_crc sampleZero 0 901).bind
      (fun hash => some (⟨hash.c, hash.d⟩ : uint128_t)) =
    some ⟨5634459796293612268, 14983055726212346442⟩
  rw [crc901_val, Option.some_bind]

lemma crc128ws_901_val : cityhash128_crc_with_seed sampleZero 0 901 ⟨0, 0⟩ =
    some ⟨631345554126235320, 6342367123087504034⟩ := by
  show (cityhash256_crc sampleZero 0 901).bind
      (fun hash =>
        (rotate64 (add64 (uint128_t.mk 0 0).a hash.b) 32).bind fun r =>
        some (⟨hash_16 (add64 (uint128_t.mk 0 0).b hash.a)
                (add64 (add64 (uint128_t.mk 0 0).a hash.b) hash.c),
              hash_16 r (add64 (mul64 (add64 (uint128_t.mk 0 0).b hash.a) k0) hash.d)⟩ :
          uint128_t)) =
    some ⟨631345554126235320, 6342367123087504034⟩
  rw [crc901_val, Option.some_bind]
  decide

set_option maxRecDepth 40000 in
set_option maxHeartbeats 3000000 in
lemma c128_901_val : cityhash128 sampleZero 0 901 =
    some ⟨16277041040631859725, 7435358835254011839⟩ := by decide

/-- C1: seeded 64-bit hashing is strictly a post-processing step over the
unseeded hash: the two-seed variant computes the unseeded hash, subtracts the
first seed modulo 2^64 and combines with the second seed via hash_16
(combine16), and the one-seed variant is the two-seed variant with first seed
k2. -/
theorem claim1_seed_composition (s : Nat → Nat) (p len seed0 seed1 h : Nat)
    (hh : cityhash64 s p len = some h) :
    cityhash64_with_seeds s p len seed0 seed1 = some (hash_16 (sub64 h seed0) seed1) ∧
    cityhash64_with_seed s p len seed1 = cityhash64_with_seeds s p len k2 seed1 := by
  constructor
  · show (cityhash64 s p len).bind (fun h => some (hash_16 (sub64 h seed0) seed1)) =
      some (hash_16 (sub64 h seed0) seed1)
    rw [hh, Option.some_bind]
  · rfl

/-- Witness for C1 at the empty input, whose unseeded hash is k2. -/
theorem claim1_witness :
    cityhash64_with_seeds sampleZero 0 0 5 7 = some (hash_16 (sub64 k2 5) 7) ∧
    cityhash64_with_seed sampleZero 0 0 7 = cityhash64_with_seeds sampleZero 0 0 k2 7 :=
  claim1_seed_composition sampleZero 0 0 5 7 k2 (by decide)

/-- C2: cityhash64 of the empty input (length 0) is exactly the constant k2,
for every buffer and every offset. -/
theorem claim2_empty_is_k2 (s : Nat → Nat) (p : Nat) : cityhash64 s p 0 = some k2 := rfl

/-- C3: for every input of length at most 900 the hardware-gated composite
128-bit hasher returns a result bit-identical to plain cityhash128. -/
theorem claim3_threshold_delegation (s : Nat → Nat) (p len : Nat) (h : len ≤ 900) :
    cityhash128_crc s p len = cityhash128 s p len := by
  show (if len ≤ 900 then cityhash128 s p len
        else (cityhash256_crc s p len).bind fun hash => some ⟨hash.c, hash.d⟩) =
    cityhash128 s p len
  rw [if_pos h]

/-- Witness for C3 at a 16-byte input. -/
theorem claim3_witness : cityhash128_crc sampleIdx 0 16 = cityhash128 sampleIdx 0 16 :=
  claim3_threshold_delegation sampleIdx 0 16 (by decide)

lemma rotate64_eq_some (v n : Nat) (h1 : 0 < n) (h2 : n < 64) :
    rotate64 v n = some (rot64val v n) := by
  unfold rotate64 rot64val
  rw [if_pos h2, if_pos (by omega)]

/-- C4 (amended): for every input of length greater than 900, cityhash128_crc
computes the 256-bit hash and returns its last two lanes (c, d) directly, with
no seed combination; the seeded variant cityhash128_crc_with_seed derives its
result by combining the seed with the first two lanes via combine16 and folding
in the last two lanes; and the composite result is in general not equal to
plain cityhash128, witnessed at the all-zero 901-byte input. -/
theorem claim4_long_composite (s : Nat → Nat) (p len : Nat) (seed : uint128_t)
    (h : 900 < len) :
    cityhash128_crc s p len =
      Option.map (fun hash => (⟨hash.c, hash.d⟩ : uint128_t)) (cityhash256_crc s p len) ∧
    cityhash128_crc_with_seed s p len seed =
      Option.map (fun hash =>
        (⟨hash_16 (add64 seed.b hash.a) (add64 (add64 seed.a hash.b) hash.c),
          hash_16 (rot64val (add64 seed.a hash.b) 32)
            (add64 (mul64 (add64 seed.b hash.a) k0) hash.d)⟩ : uint128_t))
        (cityhash256_crc s p len) ∧
    cityhash128_crc sampleZero 0 901 ≠ cityhash128 sampleZero 0 901 := by
  refine ⟨?_, ?_, ?_⟩
  · show (if len ≤ 900 then cityhash128 s p len
          else (cityhash256_crc s p len).bind fun hash => some ⟨hash.c, hash.d⟩) = _
    rw [if_neg (by omega)]
    cases cityhash256_crc s p len <;> rfl
  · show (if len ≤ 900 then cityhash128_with_seed s p len seed
          else (cityhash256_crc s p len).bind fun hash =>
            (rotate64 (add64 seed.a hash.b) 32).bind fun r =>
            some ⟨hash_16 (add64 seed.b hash.a) (add64 (add64 seed.a hash.b) hash.c),
                  hash_16 r (add64 (mul64 (add64 seed.b hash.a) k0) hash.d)⟩) = _
    rw [if_neg (by omega)]
    cases cityhash256_crc s p len with
    | none => rfl
    | some hash =>
      rw [Option.some_bind, rotate64_eq_some (add64 seed.a hash.b) 32 (by omega) (by omega),
        Option.some_bind]
      rfl
  · rw [crc128_901_val, c128_901_val]
    decide

/-- Witness for C4 at the all-zero 901-byte input. -/
theorem claim4_witness :
    cityhash128_crc sampleZero 0 901 =
      Option.map (fun hash => (⟨hash.c, hash.d⟩ : uint128_t))
        (cityhash256_crc sampleZero 0 901) :=
  (claim4_long_composite sampleZero 0 901 ⟨0, 0⟩ (by decide)).1

/-- C7: the claim asserts rotate64 is a right rotation for every shift in
[0, 64) and that the implementation special-cases shift = 0.  Amended: rotate64
is a bitwise right rotation for every shift in (0, 64), but the implementation
does NOT special-case shift = 0 — it evaluates the naive formula under
assert(shift < 64) only, so shift = 0 reaches the undefined full-width shift
(modelled none). -/
theorem claim7_rotate (val shift i : Nat) (hval : val < 2 ^ 64) (h1 : 0 < shift)
    (h2 : shift < 64) (hi : i < 64) :
    Option.map (fun r => r.testBit i) (rotate64 val shift) =
      some (val.testBit ((i + shift) % 64)) ∧
    rotate64 val 0 = none := by
  constructor
  · rw [rotate64_eq_some val shift h1 h2]
    show some ((rot64val val shift).testBit i) = _
    unfold rot64val
    rw [Nat.testBit_or, Nat.testBit_mod_two_pow, Nat.testBit_shiftLeft, Nat.testBit_shiftRight]
    by_cases hcase : i + shift < 64
    · rw [Nat.mod_eq_of_lt hcase]
      simp [show ¬(i ≥ 64 - shift) from by omega, Nat.add_comm shift i]
    · have e1 : (i + shift) % 64 = i - (64 - shift) := by omega
      have e2 : val.testBit (shift + i) = false :=
        Nat.testBit_lt_two_pow
          (Nat.lt_of_lt_of_le hval (Nat.pow_le_pow_right (by omega) (by omega)))
      rw [e1, e2]
      simp [show i ≥ 64 - shift from by omega, hi]
  · rfl

/-- Witness for C7 at value 6, shift 1, bit 0. -/
theorem claim7_witness :
    Option.map (fun r => r.testBit 0) (rotate64 6 1) = some ((6 : Nat).testBit 1) ∧
    rotate64 6 0 = none :=
  claim7_rotate 6 1 0 (by decide) (by decide) (by decide) (by decide)

/-- C7 counterexample: the source rotate64 does not special-case shift = 0 to
return the value unchanged; at value 5 and shift 0 it evaluates the naive
formula whose full-width shift is undefined (none), rather than returning 5. -/
theorem claim7_counterexample : rotate64 5 0 = none ∧ rotate64 5 0 ≠ some 5 :=
  ⟨rfl, by decide⟩

lemma truncLen_eq (len : Nat) (h : len < 2 ^ 64) : truncLen len = 64 * ((len - 1) / 64) := by
  have hmul : 64 * ((len - 1) / 64) = ((len - 1) >>> 6) <<< 6 := by
    rw [Nat.shiftRight_eq_div_pow, Nat.shiftLeft_eq]
    norm_num [Nat.mul_comm]
  have hmask : (0xffffffffffffffc0 : Nat) = (2 ^ 58 - 1) <<< 6 := by decide
  unfold truncLen
  rw [hmask, hmul]
  apply Nat.eq_of_testBit_eq
  intro i
  rw [Nat.testBit_and, Nat.testBit_shiftLeft, Nat.testBit_shiftLeft, Nat.testBit_shiftRight,
    Nat.testBit_two_pow_sub_one]
  by_cases h6 : 6 ≤ i
  · by_cases h64 : i < 64
    · rw [show 6 + (i - 6) = i from by omega]
      simp [show i ≥ 6 from h6, show i - 6 < 58 from by omega]
    · have hb1 : (len - 1).testBit (6 + (i - 6)) = false := by
        apply Nat.testBit_lt_two_pow
        calc len - 1 < 2 ^ 64 := by omega
          _ ≤ 2 ^ (6 + (i - 6)) := Nat.pow_le_pow_right (by omega) (by omega)
      have hb2 : (len - 1).testBit i = false := by
        apply Nat.testBit_lt_two_pow
        calc len - 1 < 2 ^ 64 := by omega
          _ ≤ 2 ^ i := Nat.pow_le_pow_right (by omega) (by omega)
      simp [hb1, hb2]
  · simp [show ¬(i ≥ 6) from h6]

lemma chunkLoop_eq_fold (s : Nat → Nat) :
    ∀ n p st, chunkLoop s p st n = chunkFold s st (chunkPositions p n) := by
  intro n
  induction n with
  | zero => intro p st; rfl
  | succ n ih =>
    intro p st
    have hpos : chunkPositions p (n + 1) = p :: chunkPositions (p + 64) n := by
      unfold chunkPositions
      rw [List.range_succ_eq_map, List.map_cons, List.map_map]
      have hf : ((fun i => p + 64 * i) ∘ Nat.succ) = fun i => (p + 64) + 64 * i := by
        funext i
        show p + 64 * (i + 1) = p + 64 + 64 * i
        omega
      rw [hf]
      norm_num
    rw [hpos]
    show (chunkStep s p st).bind (fun st1 => chunkLoop s (p + 64) st1 n) =
      (chunkStep s p st).bind (fun st1 => chunkFold s st1 (chunkPositions (p + 64) n))
    cases chunkStep s p st with
    | none => rfl
    | some st1 => rw [Option.some_bind, Option.some_bind, ih]

/-- C5 (amended): for every input of length len > 64, the long path of
cityhash64 truncates the effective length to (len - 1) & ~63, which is
64 * floor((len - 1) / 64) — the largest multiple of 64 strictly below len,
NOT 64 * floor(len / 64) when len is itself a multiple of 64 — and iterates
the block step over exactly floor((len - 1) / 64) 64-byte chunks taken front
to back at offsets p, p + 64, p + 128, .... -/
theorem claim5_truncation (s : Nat → Nat) (p len : Nat) (h : 64 < len) (h2 : len < 2 ^ 64) :
    truncLen len = 64 * ((len - 1) / 64) ∧
    cityhash64 s p len =
      ((longSeed s p len).bind fun st =>
       (chunkFold s st (chunkPositions p ((len - 1) / 64))).bind fun st1 =>
       some (final64 st1)) := by
  refine ⟨truncLen_eq len h2, ?_⟩
  unfold cityhash64
  rw [if_neg (by omega), if_neg (by omega)]
  have hn : truncLen len / 64 = (len - 1) / 64 := by
    rw [truncLen_eq len h2]
    omega
  rw [hn]
  simp only [chunkLoop_eq_fold]

/-- Witness for C5 at a 65-byte input (one chunk). -/
theorem claim5_witness :
    truncLen 65 = 64 * ((65 - 1) / 64) ∧
    cityhash64 sampleIdx 0 65 =
      ((longSeed sampleIdx 0 65).bind fun st =>
       (chunkFold sampleIdx st (chunkPositions 0 ((65 - 1) / 64))).bind fun st1 =>
       some (final64 st1)) :=
  claim5_truncation sampleIdx 0 65 (by decide) (by decide)

/-- C5 counterexample: at length 128 the effective length is truncated to 64,
not to the nearest multiple 128 = 64 * floor(128 / 64), so one chunk is
processed rather than the claimed two; running the long path with
floor(len / 64) chunks as the claim states yields a different hash on the
concrete 128-byte input sampleIdx. -/
theorem claim5_counterexample :
    truncLen 128 = 64 ∧ truncLen 128 ≠ 64 * (128 / 64) ∧
    cityhash64 sampleIdx 0 128 ≠ cityhash64_claimC5 sampleIdx 0 128 :=
  ⟨by decide, by decide, by decide⟩

lemma fetch64_congr2 {s t : Nat → Nat} (a b : Nat)
    (h : ∀ j, j < 8 → s (a + j) = t (b + j)) : fetch64 s a = fetch64 t b := by
  unfold fetch64 byteAt
  rw [show s a = t b from by simpa using h 0 (by omega), h 1 (by omega), h 2 (by omega),
    h 3 (by omega), h 4 (by omega), h 5 (by omega), h 6 (by omega), h 7 (by omega)]

lemma weakraw_congr2 {s t : Nat → Nat} (a b x y : Nat)
    (h : ∀ j, j < 32 → s (a + j) = t (b + j)) :
    weak_hash_32_with_seeds_raw s a x y = weak_hash_32_with_seeds_raw t b x y := by
  unfold weak_hash_32_with_seeds_raw
  have g8 : ∀ j, j < 8 → s (a + 8 + j) = t (b + 8 + j) := fun j hj => by
    rw [show a + 8 + j = a + (8 + j) from by omega, show b + 8 + j = b + (8 + j) from by omega]
    exact h (8 + j) (by omega)
  have g16 : ∀ j, j < 8 → s (a + 16 + j) = t (b + 16 + j) := fun j hj => by
    rw [show a + 16 + j = a + (16 + j) from by omega,
      show b + 16 + j = b + (16 + j) from by omega]
    exact h (16 + j) (by omega)
  have g24 : ∀ j, j < 8 → s (a + 24 + j) = t (b + 24 + j) := fun j hj => by
    rw [show a + 24 + j = a + (24 + j) from by omega,
      show b + 24 + j = b + (24 + j) from by omega]
    exact h (24 + j) (by omega)
  rw [fetch64_congr2 a b (fun j hj => h j (by omega)), fetch64_congr2 (a + 8) (b + 8) g8,
    fetch64_congr2 (a + 16) (b + 16) g16, fetch64_congr2 (a + 24) (b + 24) g24]

lemma longSeed_congr2 (s t : Nat → Nat) (p q len : Nat) (h : 64 < len)
    (h8 : ∀ i, i < 8 → s (p + i) = t (q + i))
    (h64 : ∀ i, len - 64 ≤ i → i < len → s (p + i) = t (q + i)) :
    longSeed s p len = longSeed t q len := by
  have tail8 : ∀ k, 16 ≤ k → k ≤ 64 → ∀ j, j < 8 →
      s (p + len - k + j) = t (q + len - k + j) := by
    intro k hk1 hk2 j hj
    rw [show p + len - k + j = p + (len - k + j) from by omega,
      show q + len - k + j = q + (len - k + j) from by omega]
    exact h64 (len - k + j) (by omega) (by omega)
  have tail32 : ∀ k, 32 ≤ k → k ≤ 64 → ∀ j, j < 32 →
      s (p + len - k + j) = t (q + len - k + j) := by
    intro k hk1 hk2 j hj
    rw [show p + len - k + j = p + (len - k + j) from by omega,
      show q + len - k + j = q + (len - k + j) from by omega]
    exact h64 (len - k + j) (by omega) (by omega)
  unfold longSeed
  simp only []
  rw [fetch64_congr2 p q h8,
    fetch64_congr2 (p + len - 16) (q + len - 16) (tail8 16 (by omega) (by omega)),
    fetch64_congr2 (p + len - 56) (q + len - 56) (tail8 56 (by omega) (by omega)),
    weakraw_congr2 (p + len - 64) (q + len - 64) len (fetch64 t (q + len - 16) ^^^ k1)
      (tail32 64 (by omega) (by omega)),
    weakraw_congr2 (p + len - 32) (q + len - 32) (mul64 len k1) k0
      (tail32 32 (by omega) (by omega))]

/-- C6: the claim asserts the long-path state is seeded exclusively from the
last 64 bytes (plus the length).  Amended: the register x is additionally
seeded from the FIRST 8 bytes (x = fetch64(s), line 217); y, z, v, w are
seeded from the last 64 bytes and the length.  Two buffers agreeing on their
first 8 bytes and their last 64 bytes yield identical initial state. -/
theorem claim6_long_seed (s t : Nat → Nat) (p q len : Nat) (h : 64 < len)
    (h8 : ∀ i, i < 8 → s (p + i) = t (q + i))
    (h64 : ∀ i, len - 64 ≤ i → i < len → s (p + i) = t (q + i)) :
    longSeed s p len = longSeed t q len :=
  longSeed_congr2 s t p q len h h8 h64

/-- Witness for C6 at two 65-byte buffers agreeing below address 65. -/
theorem claim6_witness : longSeed sampleZero 0 65 = longSeed sampleTail65 0 65 :=
  claim6_long_seed sampleZero sampleTail65 0 0 65 (by decide)
    (fun i hi => by
      show (0 : Nat) = if 65 ≤ 0 + i then 7 else 0
      rw [if_neg (by omega)])
    (fun i h1 h2 => by
      show (0 : Nat) = if 65 ≤ 0 + i then 7 else 0
      rw [if_neg (by omega)])

/-- C8: every length-0 call of cityhash128_with_seed is well defined and reads
no input bytes — its result depends only on the seed, so any two buffers (at
any offsets) give the same result and the call returns some; consequently the
8-to-15-byte branch of cityhash128, which recurses with the null buffer and
length 0, is a valid, defined call, as stated by the third conjunct. -/
theorem claim8_null_len0 :
    (∀ s t : Nat → Nat, ∀ p q : Nat, ∀ seed : uint128_t,
      cityhash128_with_seed s p 0 seed = cityhash128_with_seed t q 0 seed) ∧
    (∀ s : Nat → Nat, ∀ p : Nat, ∀ seed : uint128_t,
      (cityhash128_with_seed s p 0 seed).isSome = true) ∧
    (∀ s : Nat → Nat, ∀ p len : Nat, 8 ≤ len → len < 16 →
      cityhash128 s p len = cityhash128_with_seed nullPtr 0 0
        ⟨fetch64 s p ^^^ mul64 len k0, fetch64 s (p + len - 8) ^^^ k1⟩) := by
  refine ⟨fun s t p q seed => ?_, fun s p seed => ?_, fun s p len h1 h2 => ?_⟩
  · show city_murmur s p 0 seed = city_murmur t q 0 seed
    norm_num [city_murmur, toSigned64, hash_0_to_16]
  · show (city_murmur s p 0 seed).isSome = true
    norm_num [city_murmur, toSigned64, hash_0_to_16]
  · unfold cityhash128
    rw [if_neg (by omega), if_pos h1]

/-- Witness for C8 at two unrelated buffers with length 0 and at a 9-byte
input for the recursion branch. -/
theorem claim8_witness :
    cityhash128_with_seed sampleIdx 3 0 ⟨11, 22⟩ =
      cityhash128_with_seed sampleOne 9 0 ⟨11, 22⟩ ∧
    cityhash128 sampleIdx 0 9 = cityhash128_with_seed nullPtr 0 0
      ⟨fetch64 sampleIdx 0 ^^^ mul64 9 k0, fetch64 sampleIdx (0 + 9 - 8) ^^^ k1⟩ :=
  ⟨claim8_null_len0.1 sampleIdx sampleOne 3 9 ⟨11, 22⟩,
   claim8_null_len0.2.2 sampleIdx 0 9 (by decide) (by decide)⟩

/-- C6 counterexample: two 65-byte inputs agreeing on their final 64 bytes
(addresses 1 to 64) but differing at address 0 produce different initial
long-path states: x is seeded from the first 8 bytes. -/
theorem claim6_counterexample :
    (∀ i, i < 64 → sampleZero (1 + i) = sampleOne (1 + i)) ∧
    longSeed sampleZero 0 65 ≠ longSeed sampleOne 0 65 :=
  ⟨by decide, by decide⟩

/-- C4 counterexample: at the all-zero 901-byte input, cityhash128_crc returns
the last two lanes of cityhash256_crc exactly as they are, and that result is
NOT the section 4.6 seed-combining derivation that the claim describes (here
instantiated with the zero seed, as the unseeded entry point has no seed
argument): combining via combine16 yields a different pair. -/
theorem claim4_counterexample :
    cityhash128_crc sampleZero 0 901 =
      some ⟨5634459796293612268, 14983055726212346442⟩ ∧
    cityhash256_crc sampleZero 0 901 =
      some ⟨14321234580870349764, 5474435985963716387, 5634459796293612268,
        14983055726212346442⟩ ∧
    cityhash128_crc sampleZero 0 901 ≠ cityhash128_crc_with_seed sampleZero 0 901 ⟨0, 0⟩ := by
  refine ⟨crc128_901_val, crc901_val, ?_⟩
  rw [crc128_901_val, crc128ws_901_val]
  decide

lemma bind_total {α β : Type} (o : Option α) (f : α → Option β) (ho : ∃ x, o = some x)
    (hf : ∀ x, ∃ y, f x = some y) : ∃ y, o.bind f = some y := by
  obtain ⟨x, hx⟩ := ho
  rw [hx, Option.some_bind]
  exact hf x

lemma hash_0_to_16_total (s : Nat → Nat) (p len : Nat) (h : len < 64) :
    ∃ u, hash_0_to_16 s p len = some u := by
  unfold hash_0_to_16
  split_ifs with h1 h2 h3
  · exact bind_total _ _ ⟨_, rotate64_eq_some _ len (by omega) h⟩ (fun r => ⟨_, rfl⟩)
  · exact ⟨_, rfl⟩
  · exact ⟨_, rfl⟩
  · exact ⟨_, rfl⟩

lemma hash_17_to_32_total (s : Nat → Nat) (p len : Nat) :
    ∃ u, hash_17_to_32 s p len = some u := by
  unfold hash_17_to_32
  simp only []
  refine bind_total _ _ ⟨_, rotate64_eq_some _ 43 (by omega) (by omega)⟩ (fun r1 => ?_)
  refine bind_total _ _ ⟨_, rotate64_eq_some _ 30 (by omega) (by omega)⟩ (fun r2 => ?_)
  exact bind_total _ _ ⟨_, rotate64_eq_some _ 20 (by omega) (by omega)⟩ (fun r3 => ⟨_, rfl⟩)

lemma weak_some (w x y z a b : Nat) : ∃ u, weak_hash_32_with_seeds w x y z a b = some u := by
  unfold weak_hash_32_with_seeds
  simp only []
  refine bind_total _ _ ⟨_, rotate64_eq_some _ 21 (by omega) (by omega)⟩ (fun b1 => ?_)
  exact bind_total _ _ ⟨_, rotate64_eq_some _ 44 (by omega) (by omega)⟩ (fun r => ⟨_, rfl⟩)

lemma weakraw_some (s : Nat → Nat) (p a b : Nat) :
    ∃ u, weak_hash_32_with_seeds_raw s p a b = some u :=
  weak_some _ _ _ _ _ _

lemma hash_33_to_64_total (s : Nat → Nat) (p len : Nat) :
    ∃ u, hash_33_to_64 s p len = some u := by
  unfold hash_33_to_64
  simp only []
  refine bind_total _ _ ⟨_, rotate64_eq_some _ 52 (by omega) (by omega)⟩ (fun b => ?_)
  refine bind_total _ _ ⟨_, rotate64_eq_some _ 37 (by omega) (by omega)⟩ (fun c => ?_)
  refine bind_total _ _ ⟨_, rotate64_eq_some _ 7 (by omega) (by omega)⟩ (fun r1 => ?_)
  refine bind_total _ _ ⟨_, rotate64_eq_some _ 31 (by omega) (by omega)⟩ (fun r2 => ?_)
  refine bind_total _ _ ⟨_, rotate64_eq_some _ 52 (by omega) (by omega)⟩ (fun b2 => ?_)
  refine bind_total _ _ ⟨_, rotate64_eq_some _ 37 (by omega) (by omega)⟩ (fun c2 => ?_)
  refine bind_total _ _ ⟨_, rotate64_eq_some _ 7 (by omega) (by omega)⟩ (fun r3 => ?_)
  exact bind_total _ _ ⟨_, rotate64_eq_some _ 31 (by omega) (by omega)⟩ (fun r4 => ⟨_, rfl⟩)

lemma longSeed_total (s : Nat → Nat) (p len : Nat) : ∃ u, longSeed s p len = some u := by
  unfold longSeed
  simp only []
  refine bind_total _ _ (weakraw_some s (p + len - 64) len _) (fun v => ?_)
  refine bind_total _ _ (weakraw_some s (p + len - 32) (mul64 len k1) k0) (fun w => ?_)
  refine bind_total _ _ ⟨_, rotate64_eq_some _ 39 (by omega) (by omega)⟩ (fun x1 => ?_)
  exact bind_total _ _ ⟨_, rotate64_eq_some _ 33 (by omega) (by omega)⟩ (fun y1 => ⟨_, rfl⟩)

lemma chunkStep_total (s : Nat → Nat) (p : Nat) (st : LoopState) :
    ∃ u, chunkStep s p st = some u := by
  unfold chunkStep
  simp only []
  refine bind_total _ _ ⟨_, rotate64_eq_some _ 37 (by omega) (by omega)⟩ (fun x1 => ?_)
  refine bind_total _ _ ⟨_, rotate64_eq_some _ 42 (by omega) (by omega)⟩ (fun y1 => ?_)
  refine bind_total _ _ ⟨_, rotate64_eq_some _ 33 (by omega) (by omega)⟩ (fun z => ?_)
  refine bind_total _ _ (weakraw_some s p _ _) (fun v => ?_)
  exact bind_total _ _ (weakraw_some s (p + 32) _ _) (fun w => ⟨_, rfl⟩)

lemma chunkLoop_total (s : Nat → Nat) :
    ∀ n p st, ∃ u, chunkLoop s p st n = some u := by
  intro n
  induction n with
  | zero => exact fun p st => ⟨st, rfl⟩
  | succ n ih =>
    intro p st
    show ∃ u, (chunkStep s p st).bind (fun st1 => chunkLoop s (p + 64) st1 n) = some u
    exact bind_total _ _ (chunkStep_total s p st) (fun st1 => ih (p + 64) st1)

lemma cityhash64_total (s : Nat → Nat) (p len : Nat) : ∃ u, cityhash64 s p len = some u := by
  unfold cityhash64
  split_ifs with h1 h2 h3
  · exact hash_0_to_16_total s p len (by omega)
  · exact hash_17_to_32_total s p len
  · exact hash_33_to_64_total s p len
  · exact bind_total _ _ (longSeed_total s p len)
      (fun st => bind_total _ _ (chunkLoop_total s _ p st) (fun st1 => ⟨_, rfl⟩))

lemma cityhash64_with_seeds_total (s : Nat → Nat) (p len seed0 seed1 : Nat) :
    ∃ u, cityhash64_with_seeds s p len seed0 seed1 = some u :=
  bind_total _ _ (cityhash64_total s p len) (fun _ => ⟨_, rfl⟩)

lemma murmur_cond (len : Nat) (h : len < 2 ^ 63) :
    toSigned64 (len + 2 ^ 64 - 16) ≤ 0 ↔ len ≤ 16 := by
  unfold toSigned64
  simp only [show (2 : Nat) ^ 64 = 18446744073709551616 from by norm_num,
    show (2 : Nat) ^ 63 = 9223372036854775808 from by norm_num,
    show (2 : Int) ^ 64 = 18446744073709551616 from by norm_num] at h ⊢
  split_ifs with hc
  · omega
  · omega

lemma city_murmur_total (s : Nat → Nat) (p len : Nat) (seed : uint128_t) (h : len < 2 ^ 63) :
    ∃ u, city_murmur s p len seed = some u := by
  unfold city_murmur
  simp only []
  split_ifs with hl h8
  · have h16 : len ≤ 16 := (murmur_cond len h).mp hl
    obtain ⟨x, hx⟩ := hash_0_to_16_total s p len (by omega)
    simp only [hx, Option.some_bind]
    exact ⟨_, rfl⟩
  · have h16 : len ≤ 16 := (murmur_cond len h).mp hl
    obtain ⟨x, hx⟩ := hash_0_to_16_total s p len (by omega)
    simp only [hx, Option.some_bind]
    exact ⟨_, rfl⟩
  · exact ⟨_, rfl⟩

lemma superStep_total (s : Nat → Nat) (p : Nat) (st : LoopState) :
    ∃ u, superStep s p st = some u := by
  unfold superStep
  exact bind_total _ _ (chunkStep_total s p st) (fun st1 => chunkStep_total s (p + 64) st1)

lemma superLoop_total (s : Nat → Nat) :
    ∀ n p st, ∃ u, superLoop s p st n = some u := by
  intro n
  induction n with
  | zero => exact fun p st => ⟨st, rfl⟩
  | succ n ih =>
    intro p st
    show ∃ u, (superStep s p st).bind (fun st1 => superLoop s (p + 128) st1 n) = some u
    exact bind_total _ _ (superStep_total s p st) (fun st1 => ih (p + 128) st1)

lemma tailLoop128_total (s : Nat → Nat) (p len : Nat) :
    ∀ n x y v w td, ∃ u, tailLoop128 s p len x y v w n td = some u := by
  intro n
  induction n with
  | zero => exact fun x y v w td => ⟨_, rfl⟩
  | succ n ih =>
    intro x y v w td
    simp only [tailLoop128]
    refine bind_total _ _ ⟨_, rotate64_eq_some _ 42 (by omega) (by omega)⟩ (fun y1 => ?_)
    refine bind_total _ _ ⟨_, rotate64_eq_some _ 49 (by omega) (by omega)⟩ (fun x1 => ?_)
    refine bind_total _ _ (weakraw_some s _ _ _) (fun v1 => ?_)
    exact ih _ _ _ _ _

lemma finish128_total (s : Nat → Nat) (p rem : Nat) (st : LoopState) :
    ∃ u, finish128 s p rem st = some u := by
  unfold finish128
  refine bind_total _ _ ⟨_, rotate64_eq_some _ 37 (by omega) (by omega)⟩ (fun r1 => ?_)
  refine bind_total _ _ ⟨_, rotate64_eq_some _ 49 (by omega) (by omega)⟩ (fun r2 => ?_)
  exact bind_total _ _ (tailLoop128_total s _ _ _ _ _ _ _ _) (fun t => ⟨_, rfl⟩)

lemma cityhash128_with_seed_total (s : Nat → Nat) (p len : Nat) (seed : uint128_t) :
    ∃ u, cityhash128_with_seed s p len seed = some u := by
  unfold cityhash128_with_seed
  split_ifs with h
  · exact city_murmur_total s p len seed (by omega)
  · refine bind_total _ _ ⟨_, rotate64_eq_some _ 49 (by omega) (by omega)⟩ (fun t1 => ?_)
    refine bind_total _ _ ⟨_, rotate64_eq_some _ 42 (by omega) (by omega)⟩ (fun t2 => ?_)
    refine bind_total _ _ ⟨_, rotate64_eq_some _ 35 (by omega) (by omega)⟩ (fun t3 => ?_)
    refine bind_total _ _ ⟨_, rotate64_eq_some _ 53 (by omega) (by omega)⟩ (fun t4 => ?_)
    refine bind_total _ _ (superLoop_total s _ p _) (fun st => ?_)
    exact finish128_total s _ _ st

lemma cityhash128_total (s : Nat → Nat) (p len : Nat) : ∃ u, cityhash128 s p len = some u := by
  unfold cityhash128
  split_ifs with h1 h2
  · exact cityhash128_with_seed_total s (p + 16) (len - 16) _
  · exact cityhash128_with_seed_total nullPtr 0 0 _
  · exact cityhash128_with_seed_total s p len _

lemma chunk256_total (s : Nat → Nat) (p mult z : Nat) (st : Crc256State) (hz : z ≤ 1) :
    ∃ u, chunk256 s p mult z st = some u := by
  have hz01 : z = 0 ∨ z = 1 := by omega
  unfold chunk256
  simp only []
  rcases hz01 with rfl | rfl
  · refine bind_total _ _ ⟨_, rotate64_eq_some _ (41 ^^^ 0) (by decide) (by decide)⟩ (fun a1 => ?_)
    refine bind_total _ _ ⟨_, rotate64_eq_some _ (27 ^^^ 0) (by decide) (by decide)⟩ (fun b1 => ?_)
    refine bind_total _ _ ⟨_, rotate64_eq_some _ (41 ^^^ 0) (by decide) (by decide)⟩ (fun c1 => ?_)
    refine bind_total _ _ ⟨_, rotate64_eq_some _ (33 ^^^ 0) (by decide) (by decide)⟩ (fun d1 => ?_)
    exact bind_total _ _ ⟨_, rotate64_eq_some _ (25 ^^^ 0) (by decide) (by decide)⟩
      (fun e1 => ⟨_, rfl⟩)
  · refine bind_total _ _ ⟨_, rotate64_eq_some _ (41 ^^^ 1) (by decide) (by decide)⟩ (fun a1 => ?_)
    refine bind_total _ _ ⟨_, rotate64_eq_some _ (27 ^^^ 1) (by decide) (by decide)⟩ (fun b1 => ?_)
    refine bind_total _ _ ⟨_, rotate64_eq_some _ (41 ^^^ 1) (by decide) (by decide)⟩ (fun c1 => ?_)
    refine bind_total _ _ ⟨_, rotate64_eq_some _ (33 ^^^ 1) (by decide) (by decide)⟩ (fun d1 => ?_)
    exact bind_total _ _ ⟨_, rotate64_eq_some _ (25 ^^^ 1) (by decide) (by decide)⟩
      (fun e1 => ⟨_, rfl⟩)

lemma block256_total (s : Nat → Nat) (p : Nat) (st : Crc256State) :
    ∃ u, block256 s p st = some u := by
  unfold block256
  refine bind_total _ _ (chunk256_total s p 1 1 st (by omega)) (fun s1 => ?_)
  refine bind_total _ _ (chunk256_total s (p + 40) k0 0 s1 (by omega)) (fun s2 => ?_)
  refine bind_total _ _ (chunk256_total s (p + 80) 1 1 s2 (by omega)) (fun s3 => ?_)
  refine bind_total _ _ (chunk256_total s (p + 120) k0 0 s3 (by omega)) (fun s4 => ?_)
  refine bind_total _ _ (chunk256_total s (p + 160) 1 1 s4 (by omega)) (fun s5 => ?_)
  exact chunk256_total s (p + 200) k0 0 s5 (by omega)

lemma loop256_total (s : Nat → Nat) :
    ∀ n p st, ∃ u, loop256 s p st n = some u := by
  intro n
  induction n with
  | zero => exact fun p st => ⟨st, rfl⟩
  | succ n ih =>
    intro p st
    show ∃ u, (block256 s p st).bind (fun st1 => loop256 s (p + 240) st1 n) = some u
    exact bind_total _ _ (block256_total s p st) (fun st1 => ih (p + 240) st1)

lemma tailLoop256_total (s : Nat → Nat) (p len : Nat) :
    ∀ n a c d v td, ∃ u, tailLoop256 s p len a c d v n td = some u := by
  intro n
  induction n with
  | zero => exact fun a c d v td => ⟨_, rfl⟩
  | succ n ih =>
    intro a c d v td
    simp only [tailLoop256]
    refine bind_total _ _ ⟨_, rotate64_eq_some _ 42 (by omega) (by omega)⟩ (fun c1 => ?_)
    refine bind_total _ _ ⟨_, rotate64_eq_some _ 49 (by omega) (by omega)⟩ (fun a1 => ?_)
    refine bind_total _ _ (weakraw_some s _ _ _) (fun v1 => ?_)
    exact ih _ _ _ _ _

lemma finish256_total (s : Nat → Nat) (p rem rb rc : Nat) (st : Crc256State) :
    ∃ u, finish256 s p rem rb rc st = some u := by
  unfold finish256
  simp only []
  exact bind_total _ _ (tailLoop256_total s p rem _ _ _ _ _ _) (fun r => ⟨_, rfl⟩)

lemma cityhash256_crc_long_total (s : Nat → Nat) (p len seed : Nat) :
    ∃ u, cityhash256_crc_long s p len seed = some u := by
  unfold cityhash256_crc_long
  simp only []
  exact bind_total _ _ (loop256_total s _ p _) (fun st1 => finish256_total s _ _ _ _ st1)

lemma cityhash256_crc_total (s : Nat → Nat) (p len : Nat) :
    ∃ u, cityhash256_crc s p len = some u := by
  unfold cityhash256_crc
  split_ifs with h
  · exact cityhash256_crc_long_total s p len 0
  · exact cityhash256_crc_long_total (padBuf s p len) 0 240 _

lemma cityhash128_crc_total (s : Nat → Nat) (p len : Nat) :
    ∃ u, cityhash128_crc s p len = some u := by
  unfold cityhash128_crc
  split_ifs with h
  · exact cityhash128_total s p len
  · exact bind_total _ _ (cityhash256_crc_total s p len) (fun hash => ⟨_, rfl⟩)

lemma cityhash128_crc_with_seed_total (s : Nat → Nat) (p len : Nat) (seed : uint128_t) :
    ∃ u, cityhash128_crc_with_seed s p len seed = some u := by
  unfold cityhash128_crc_with_seed
  split_ifs with h
  · exact cityhash128_with_seed_total s p len seed
  · refine bind_total _ _ (cityhash256_crc_total s p len) (fun hash => ?_)
    exact bind_total _ _ ⟨_, rotate64_eq_some _ 32 (by omega) (by omega)⟩ (fun r => ⟨_, rfl⟩)

/-- C10: rotate64 succeeds exactly on shifts strictly between 0 and 64
(bad shifts are none, and none propagates through every caller), and every
public 64-bit and 128-bit entry point returns some on every input: every
rotate64 invocation reachable from the public interface — including the single
data-dependent one, rotate64(b + len, len) with 9 <= len <= 16 in the
9-to-16-byte branch of hash_0_to_16 — has a shift strictly between 0 and 64,
so the assertion shift < 64 always holds and the shift-by-zero hazard is
unreachable. -/
theorem claim10_no_bad_shift (s : Nat → Nat) (p len seed0 seed1 : Nat) (seed : uint128_t) :
    (∀ v n, (rotate64 v n).isSome = true ↔ (0 < n ∧ n < 64)) ∧
    (cityhash64 s p len).isSome = true ∧
    (cityhash64_with_seed s p len seed0).isSome = true ∧
    (cityhash64_with_seeds s p len seed0 seed1).isSome = true ∧
    (cityhash128 s p len).isSome = true ∧
    (cityhash128_with_seed s p len seed).isSome = true ∧
    (cityhash128_crc s p len).isSome = true ∧
    (cityhash128_crc_with_seed s p len seed).isSome = true := by
  refine ⟨fun v n => ?_, ?_, ?_, ?_, ?_, ?_, ?_, ?_⟩
  · constructor
    · intro hs
      by_contra hc
      have : rotate64 v n = none := by
        unfold rotate64
        split_ifs with g1 g2
        · omega
        · rfl
        · rfl
      rw [this] at hs
      exact absurd hs (by decide)
    · intro hc
      rw [rotate64_eq_some v n hc.1 hc.2]
      rfl
  · obtain ⟨u, hu⟩ := cityhash64_total s p len
    rw [hu]; rfl
  · show (cityhash64_with_seeds s p len k2 seed0).isSome = true
    obtain ⟨u2, hu2⟩ := cityhash64_with_seeds_total s p len k2 seed0
    rw [hu2]; rfl
  · obtain ⟨u, hu⟩ := cityhash64_with_seeds_total s p len seed0 seed1
    rw [hu]; rfl
  · obtain ⟨u, hu⟩ := cityhash128_total s p len
    rw [hu]; rfl
  · obtain ⟨u, hu⟩ := cityhash128_with_seed_total s p len seed
    rw [hu]; rfl
  · obtain ⟨u, hu⟩ := cityhash128_crc_total s p len
    rw [hu]; rfl
  · obtain ⟨u, hu⟩ := cityhash128_crc_with_seed_total s p len seed
    rw [hu]; rfl

lemma bind_congr_opt {α β : Type} {o : Option α} {f g : α → Option β}
    (hf : ∀ x, f x = g x) : o.bind f = o.bind g := by
  cases o with
  | none => rfl
  | some x => simpa using hf x

lemma byteAt_congr {s t : Nat → Nat} {N : Nat} (H : ∀ i, i < N → s i = t i) (a : Nat)
    (ha : a < N) : byteAt s a = byteAt t a := by
  unfold byteAt
  rw [H a ha]

lemma fetch64_congr {s t : Nat → Nat} {N : Nat} (H : ∀ i, i < N → s i = t i) (a : Nat)
    (ha : a + 8 ≤ N) : fetch64 s a = fetch64 t a :=
  fetch64_congr2 a a (fun j hj => H (a + j) (by omega))

lemma fetch32_congr {s t : Nat → Nat} {N : Nat} (H : ∀ i, i < N → s i = t i) (a : Nat)
    (ha : a + 4 ≤ N) : fetch32 s a = fetch32 t a := by
  unfold fetch32 byteAt
  rw [H a (by omega), H (a + 1) (by omega), H (a + 2) (by omega), H (a + 3) (by omega)]

lemma weakraw_congr {s t : Nat → Nat} {N : Nat} (H : ∀ i, i < N → s i = t i) (a x y : Nat)
    (ha : a + 32 ≤ N) :
    weak_hash_32_with_seeds_raw s a x y = weak_hash_32_with_seeds_raw t a x y :=
  weakraw_congr2 a a x y (fun j hj => H (a + j) (by omega))

lemma hash_0_to_16_congr {s t : Nat → Nat} {N : Nat} (H : ∀ i, i < N → s i = t i)
    (p len : Nat) (hb : p + len ≤ N) : hash_0_to_16 s p len = hash_0_to_16 t p len := by
  unfold hash_0_to_16
  split_ifs with h1 h2 h3
  · rw [fetch64_congr H p (by omega), fetch64_congr H (p + len - 8) (by omega)]
  · rw [fetch32_congr H p (by omega), fetch32_congr H (p + len - 4) (by omega)]
  · have hs : len >>> 1 < len := by
      rw [Nat.shiftRight_eq_div_pow]
      omega
    rw [byteAt_congr H p (by omega), byteAt_congr H (p + (len >>> 1)) (by omega),
      byteAt_congr H (p + len - 1) (by omega)]
  · rfl

lemma hash_17_to_32_congr {s t : Nat → Nat} {N : Nat} (H : ∀ i, i < N → s i = t i)
    (p len : Nat) (hlen : 16 ≤ len) (hb : p + len ≤ N) :
    hash_17_to_32 s p len = hash_17_to_32 t p len := by
  unfold hash_17_to_32
  simp only []
  rw [fetch64_congr H p (by omega), fetch64_congr H (p + 8) (by omega),
    fetch64_congr H (p + len - 8) (by omega), fetch64_congr H (p + len - 16) (by omega)]

lemma hash_33_to_64_congr {s t : Nat → Nat} {N : Nat} (H : ∀ i, i < N → s i = t i)
    (p len : Nat) (hlen : 32 ≤ len) (hb : p + len ≤ N) :
    hash_33_to_64 s p len = hash_33_to_64 t p len := by
  unfold hash_33_to_64
  simp only []
  rw [fetch64_congr H p (by omega), fetch64_congr H (p + 8) (by omega),
    fetch64_congr H (p + 16) (by omega), fetch64_congr H (p + 24) (by omega),
    fetch64_congr H (p + len - 8) (by omega), fetch64_congr H (p + len - 16) (by omega),
    fetch64_congr H (p + len - 24) (by omega), fetch64_congr H (p + len - 32) (by omega)]

lemma chunkStep_congr {s t : Nat → Nat} {N : Nat} (H : ∀ i, i < N → s i = t i)
    (p : Nat) (st : LoopState) (hb : p + 64 ≤ N) : chunkStep s p st = chunkStep t p st := by
  unfold chunkStep
  simp only []
  rw [fetch64_congr H (p + 16) (by omega), fetch64_congr H (p + 48) (by omega)]
  refine bind_congr_opt (fun x1 => ?_)
  refine bind_congr_opt (fun y1 => ?_)
  refine bind_congr_opt (fun z => ?_)
  rw [weakraw_congr H p _ _ (by omega)]
  refine bind_congr_opt (fun v => ?_)
  rw [weakraw_congr H (p + 32) _ _ (by omega)]

lemma chunkLoop_congr {s t : Nat → Nat} {N : Nat} (H : ∀ i, i < N → s i = t i) :
    ∀ n p st, p + 64 * n ≤ N → chunkLoop s p st n = chunkLoop t p st n := by
  intro n
  induction n with
  | zero => intro p st _; rfl
  | succ n ih =>
    intro p st hb
    show (chunkStep s p st).bind (fun st1 => chunkLoop s (p + 64) st1 n) =
      (chunkStep t p st).bind (fun st1 => chunkLoop t (p + 64) st1 n)
    rw [chunkStep_congr H p st (by omega)]
    refine bind_congr_opt (fun st1 => ?_)
    exact ih (p + 64) st1 (by omega)

lemma murmurLoop_congr {s t : Nat → Nat} {N : Nat} (H : ∀ i, i < N → s i = t i) :
    ∀ n p a b c d, p + 16 * n ≤ N → murmurLoop s p a b c d n = murmurLoop t p a b c d n := by
  intro n
  induction n with
  | zero => intro p a b c d _; rfl
  | succ n ih =>
    intro p a b c d hb
    simp only [murmurLoop]
    rw [fetch64_congr H p (by omega), fetch64_congr H (p + 8) (by omega)]
    exact ih (p + 16) _ _ _ _ (by omega)

lemma murmur_pos (len : Nat) (hl : ¬ toSigned64 (len + 2 ^ 64 - 16) ≤ 0) :
    17 ≤ len ∧ (toSigned64 (len + 2 ^ 64 - 16)).toNat ≤ len - 16 := by
  unfold toSigned64 at hl ⊢
  simp only [show (2 : Nat) ^ 64 = 18446744073709551616 from by norm_num,
    show (2 : Nat) ^ 63 = 9223372036854775808 from by norm_num,
    show (2 : Int) ^ 64 = 18446744073709551616 from by norm_num] at hl ⊢
  split_ifs at hl ⊢ with hc
  · constructor <;> omega
  · constructor <;> omega

lemma city_murmur_congr {s t : Nat → Nat} {N : Nat} (H : ∀ i, i < N → s i = t i)
    (p len : Nat) (seed : uint128_t) (hb : p + len ≤ N) :
    city_murmur s p len seed = city_murmur t p len seed := by
  unfold city_murmur
  simp only []
  by_cases hl : toSigned64 (len + 2 ^ 64 - 16) ≤ 0
  · rw [if_pos hl, if_pos hl, hash_0_to_16_congr H p len hb]
    refine congrArg (fun o => Option.bind o _) (bind_congr_opt (fun hh => ?_))
    by_cases h8 : 8 ≤ len
    · rw [if_pos h8, if_pos h8, fetch64_congr H p (by omega)]
    · rw [if_neg h8, if_neg h8]
  · obtain ⟨hl17, hlN⟩ := murmur_pos len hl
    rw [if_neg hl, if_neg hl, fetch64_congr H (p + len - 8) (by omega),
      fetch64_congr H (p + len - 16) (by omega),
      murmurLoop_congr H (((toSigned64 (len + 2 ^ 64 - 16)).toNat + 15) / 16) p _ _ _ _
        (by omega)]

lemma superStep_congr {s t : Nat → Nat} {N : Nat} (H : ∀ i, i < N → s i = t i)
    (p : Nat) (st : LoopState) (hb : p + 128 ≤ N) : superStep s p st = superStep t p st := by
  unfold superStep
  rw [chunkStep_congr H p st (by omega)]
  refine bind_congr_opt (fun st1 => ?_)
  rw [chunkStep_congr H (p + 64) st1 (by omega)]

lemma superLoop_congr {s t : Nat → Nat} {N : Nat} (H : ∀ i, i < N → s i = t i) :
    ∀ n p st, p + 128 * n ≤ N → superLoop s p st n = superLoop t p st n := by
  intro n
  induction n with
  | zero => intro p st _; rfl
  | succ n ih =>
    intro p st hb
    show (superStep s p st).bind (fun st1 => superLoop s (p + 128) st1 n) =
      (superStep t p st).bind (fun st1 => superLoop t (p + 128) st1 n)
    rw [superStep_congr H p st (by omega)]
    refine bind_congr_opt (fun st1 => ?_)
    exact ih (p + 128) st1 (by omega)

lemma tailLoop128_congr {s t : Nat → Nat} {N : Nat} (H : ∀ i, i < N → s i = t i)
    (p len : Nat) (hb : p + len ≤ N) :
    ∀ n x y v w td, td + 32 * n ≤ p + len →
      tailLoop128 s p len x y v w n td = tailLoop128 t p len x y v w n td := by
  intro n
  induction n with
  | zero => intro x y v w td _; rfl
  | succ n ih =>
    intro x y v w td htd
    simp only [tailLoop128]
    rw [fetch64_congr H (p + len - (td + 32) + 16) (by omega),
      weakraw_congr H (p + len - (td + 32)) _ _ (by omega)]
    refine bind_congr_opt (fun y1 => ?_)
    refine bind_congr_opt (fun x1 => ?_)
    refine bind_congr_opt (fun v1 => ?_)
    exact ih _ _ _ _ _ (by omega)

lemma finish128_congr {s t : Nat → Nat} {N : Nat} (H : ∀ i, i < N → s i = t i)
    (p rem : Nat) (st : LoopState) (hb : p + rem ≤ N)
    (htd : 32 * ((rem + 31) / 32) ≤ p + rem) : finish128 s p rem st = finish128 t p rem st := by
  unfold finish128
  refine bind_congr_opt (fun r1 => ?_)
  refine bind_congr_opt (fun r2 => ?_)
  rw [tailLoop128_congr H p rem hb ((rem + 31) / 32) _ _ _ _ 0 (by omega)]

lemma cityhash128_with_seed_congr {s t : Nat → Nat} {N : Nat} (H : ∀ i, i < N → s i = t i)
    (p len : Nat) (seed : uint128_t) (hb : p + len ≤ N) :
    cityhash128_with_seed s p len seed = cityhash128_with_seed t p len seed := by
  unfold cityhash128_with_seed
  split_ifs with h
  · exact city_murmur_congr H p len seed hb
  · rw [fetch64_congr H p (by omega), fetch64_congr H (p + 8) (by omega),
      fetch64_congr H (p + 88) (by omega)]
    refine bind_congr_opt (fun t1 => ?_)
    refine bind_congr_opt (fun t2 => ?_)
    refine bind_congr_opt (fun t3 => ?_)
    refine bind_congr_opt (fun t4 => ?_)
    rw [superLoop_congr H (len / 128) p _ (by omega)]
    refine bind_congr_opt (fun st => ?_)
    exact finish128_congr H (p + 128 * (len / 128)) (len % 128) st (by omega) (by omega)

lemma cityhash128_congr {s t : Nat → Nat} {N : Nat} (H : ∀ i, i < N → s i = t i)
    (p len : Nat) (hb : p + len ≤ N) : cityhash128 s p len = cityhash128 t p len := by
  unfold cityhash128
  split_ifs with h1 h2
  · rw [fetch64_congr H p (by omega), fetch64_congr H (p + 8) (by omega)]
    exact cityhash128_with_seed_congr H (p + 16) (len - 16) _ (by omega)
  · rw [fetch64_congr H p (by omega), fetch64_congr H (p + len - 8) (by omega)]
  · exact cityhash128_with_seed_congr H p len _ hb

lemma cityhash64_congr {s t : Nat → Nat} {N : Nat} (H : ∀ i, i < N → s i = t i)
    (p len : Nat) (hb : p + len ≤ N) : cityhash64 s p len = cityhash64 t p len := by
  unfold cityhash64
  split_ifs with h1 h2 h3
  · exact hash_0_to_16_congr H p len hb
  · exact hash_17_to_32_congr H p len (by omega) hb
  · exact hash_33_to_64_congr H p len (by omega) hb
  · have hX : truncLen len ≤ len - 1 := Nat.and_le_left
    rw [longSeed_congr2 s t p p len (by omega) (fun i hi => H (p + i) (by omega))
      (fun i hi1 hi2 => H (p + i) (by omega))]
    refine bind_congr_opt (fun st => ?_)
    rw [chunkLoop_congr H (truncLen len / 64) p st (by omega)]

lemma chunk256_congr {s t : Nat → Nat} {N : Nat} (H : ∀ i, i < N → s i = t i)
    (p mult z : Nat) (st : Crc256State) (hb : p + 40 ≤ N) :
    chunk256 s p mult z st = chunk256 t p mult z st := by
  unfold chunk256
  simp only []
  rw [fetch64_congr H p (by omega), fetch64_congr H (p + 8) (by omega),
    fetch64_congr H (p + 16) (by omega), fetch64_congr H (p + 24) (by omega),
    fetch64_congr H (p + 32) (by omega)]

lemma block256_congr {s t : Nat → Nat} {N : Nat} (H : ∀ i, i < N → s i = t i)
    (p : Nat) (st : Crc256State) (hb : p + 240 ≤ N) : block256 s p st = block256 t p st := by
  unfold block256
  rw [chunk256_congr H p 1 1 st (by omega)]
  refine bind_congr_opt (fun s1 => ?_)
  rw [chunk256_congr H (p + 40) k0 0 s1 (by omega)]
  refine bind_congr_opt (fun s2 => ?_)
  rw [chunk256_congr H (p + 80) 1 1 s2 (by omega)]
  refine bind_congr_opt (fun s3 => ?_)
  rw [chunk256_congr H (p + 120) k0 0 s3 (by omega)]
  refine bind_congr_opt (fun s4 => ?_)
  rw [chunk256_congr H (p + 160) 1 1 s4 (by omega)]
  refine bind_congr_opt (fun s5 => ?_)
  rw [chunk256_congr H (p + 200) k0 0 s5 (by omega)]

lemma loop256_congr {s t : Nat → Nat} {N : Nat} (H : ∀ i, i < N → s i = t i) :
    ∀ n p st, p + 240 * n ≤ N → loop256 s p st n = loop256 t p st n := by
  intro n
  induction n with
  | zero => intro p st _; rfl
  | succ n ih =>
    intro p st hb
    show (block256 s p st).bind (fun st1 => loop256 s (p + 240) st1 n) =
      (block256 t p st).bind (fun st1 => loop256 t (p + 240) st1 n)
    rw [block256_congr H p st (by omega)]
    refine bind_congr_opt (fun st1 => ?_)
    exact ih (p + 240) st1 (by omega)

lemma tailLoop256_congr {s t : Nat → Nat} {N : Nat} (H : ∀ i, i < N → s i = t i)
    (p len : Nat) (hb : p + len ≤ N) :
    ∀ n a c d v td, td + 32 * n ≤ p + len →
      tailLoop256 s p len a c d v n td = tailLoop256 t p len a c d v n td := by
  intro n
  induction n with
  | zero => intro a c d v td _; rfl
  | succ n ih =>
    intro a c d v td htd
    simp only [tailLoop256]
    rw [fetch64_congr H (p + len - (td + 32) + 16) (by omega),
      weakraw_congr H (p + len - (td + 32)) _ _ (by omega)]
    refine bind_congr_opt (fun c1 => ?_)
    refine bind_congr_opt (fun a1 => ?_)
    refine bind_congr_opt (fun v1 => ?_)
    exact ih _ _ _ _ _ (by omega)

lemma init256_congr {s t : Nat → Nat} {N : Nat} (H : ∀ i, i < N → s i = t i)
    (p len seed : Nat) (hb : p + 192 ≤ N) : init256 s p len seed = init256 t p len seed := by
  unfold init256
  simp only []
  rw [fetch64_congr H (p + 56) (by omega), fetch64_congr H (p + 96) (by omega),
    fetch64_congr H (p + 120) (by omega), fetch64_congr H (p + 184) (by omega)]

lemma finish256_congr {s t : Nat → Nat} {N : Nat} (H : ∀ i, i < N → s i = t i)
    (p rem rb rc : Nat) (st : Crc256State) (hb : p + rem ≤ N)
    (htd : 32 * ((rem + 31) / 32) ≤ p + rem) :
    finish256 s p rem rb rc st = finish256 t p rem rb rc st := by
  unfold finish256
  simp only []
  rw [tailLoop256_congr H p rem hb ((rem + 31) / 32) _ _ _ _ 0 (by omega)]

lemma cityhash256_crc_long_congr {s t : Nat → Nat} {N : Nat} (H : ∀ i, i < N → s i = t i)
    (p len seed : Nat) (hlen : 240 ≤ len) (hb : p + len ≤ N) :
    cityhash256_crc_long s p len seed = cityhash256_crc_long t p len seed := by
  unfold cityhash256_crc_long
  simp only []
  rw [init256_congr H p len seed (by omega),
    loop256_congr H (len / 240) p (init256 t p len seed) (by omega)]
  refine bind_congr_opt (fun st1 => ?_)
  exact finish256_congr H (p + 240 * (len / 240)) (len - len / 240 * 240)
    (init256 t p len seed).c (init256 t p len seed).d st1 (by omega) (by omega)

lemma padBuf_congr {s t : Nat → Nat} {N : Nat} (H : ∀ i, i < N → s i = t i)
    (p len : Nat) (hb : p + len ≤ N) : padBuf s p len = padBuf t p len := by
  funext i
  unfold padBuf
  by_cases hi : i < len
  · rw [if_pos hi, if_pos hi]
    exact byteAt_congr H (p + i) (by omega)
  · rw [if_neg hi, if_neg hi]

lemma cityhash256_crc_congr {s t : Nat → Nat} {N : Nat} (H : ∀ i, i < N → s i = t i)
    (p len : Nat) (hb : p + len ≤ N) : cityhash256_crc s p len = cityhash256_crc t p len := by
  unfold cityhash256_crc
  split_ifs with h
  · exact cityhash256_crc_long_congr H p len 0 (by omega) hb
  · unfold cityhash256_crc_short
    rw [padBuf_congr H p len hb]

lemma cityhash128_crc_congr {s t : Nat → Nat} {N : Nat} (H : ∀ i, i < N → s i = t i)
    (p len : Nat) (hb : p + len ≤ N) : cityhash128_crc s p len = cityhash128_crc t p len := by
  unfold cityhash128_crc
  split_ifs with h
  · exact cityhash128_congr H p len hb
  · rw [cityhash256_crc_congr H p len hb]

lemma cityhash128_crc_with_seed_congr {s t : Nat → Nat} {N : Nat}
    (H : ∀ i, i < N → s i = t i) (p len : Nat) (seed : uint128_t) (hb : p + len ≤ N) :
    cityhash128_crc_with_seed s p len seed = cityhash128_crc_with_seed t p len seed := by
  unfold cityhash128_crc_with_seed
  split_ifs with h
  · exact cityhash128_with_seed_congr H p len seed hb
  · rw [cityhash256_crc_congr H p len hb]

/-- C9: every public entry point is a deterministic pure function of the input
byte sequence (the len bytes starting at the buffer pointer), the length and
the seed: any two buffers that agree on those bytes — regardless of what lies
beyond them — give bit-identical output from every entry point; in the
embedding all functions are pure (the C source keeps no mutable globals, only
the constants k0-k3), so repeated calls trivially coincide and this theorem
states the stronger fact that the result depends on nothing but (bytes, len,
seed). -/
theorem claim9_determinism (s t : Nat → Nat) (p len seed0 seed1 : Nat) (seed : uint128_t)
    (H : ∀ i, i < p + len → s i = t i) :
    cityhash64 s p len = cityhash64 t p len ∧
    cityhash64_with_seed s p len seed0 = cityhash64_with_seed t p len seed0 ∧
    cityhash64_with_seeds s p len seed0 seed1 = cityhash64_with_seeds t p len seed0 seed1 ∧
    cityhash128 s p len = cityhash128 t p len ∧
    cityhash128_with_seed s p len seed = cityhash128_with_seed t p len seed ∧
    cityhash256_crc s p len = cityhash256_crc t p len ∧
    cityhash128_crc s p len = cityhash128_crc t p len ∧
    cityhash128_crc_with_seed s p len seed = cityhash128_crc_with_seed t p len seed := by
  have h64 : cityhash64 s p len = cityhash64 t p len :=
    cityhash64_congr H p len (by omega)
  refine ⟨h64, ?_, ?_, cityhash128_congr H p len (by omega),
    cityhash128_with_seed_congr H p len seed (by omega),
    cityhash256_crc_congr H p len (by omega),
    cityhash128_crc_congr H p len (by omega),
    cityhash128_crc_with_seed_congr H p len seed (by omega)⟩
  · show cityhash64_with_seeds s p len k2 seed0 = cityhash64_with_seeds t p len k2 seed0
    unfold cityhash64_with_seeds
    rw [h64]
  · unfold cityhash64_with_seeds
    rw [h64]

/-- Witness for C9: a 16-byte input hashed from two buffers that differ above
address 16. -/
theorem claim9_witness :
    cityhash64 sampleIdx 0 16 = cityhash64 sampleJunk 0 16 ∧
    cityhash64_with_seed sampleIdx 0 16 5 = cityhash64_with_seed sampleJunk 0 16 5 ∧
    cityhash64_with_seeds sampleIdx 0 16 5 7 = cityhash64_with_seeds sampleJunk 0 16 5 7 ∧
    cityhash128 sampleIdx 0 16 = cityhash128 sampleJunk 0 16 ∧
    cityhash128_with_seed sampleIdx 0 16 ⟨5, 7⟩ = cityhash128_with_seed sampleJunk 0 16 ⟨5, 7⟩ ∧
    cityhash256_crc sampleIdx 0 16 = cityhash256_crc sampleJunk 0 16 ∧
    cityhash128_crc sampleIdx 0 16 = cityhash128_crc sampleJunk 0 16 ∧
    cityhash128_crc_with_seed sampleIdx 0 16 ⟨5, 7⟩ =
      cityhash128_crc_with_seed sampleJunk 0 16 ⟨5, 7⟩ :=
  claim9_determinism sampleIdx sampleJunk 0 16 5 7 ⟨5, 7⟩ (by decide)

end Cityhash
